import Mathlib

/-!
Verification development for the ZIP extraction module
(src/vs/base/node/zip.ts).

The TypeScript source is shallowly embedded:
pure helpers (modeFromEntry, toExtractError, the sourcePath filter)
become Lean functions; the event-driven drivers (extractZip, read,
buffer) become step functions folded over explicit event lists, with
filesystem and archive collaborators supplied as outcome oracles.
Machine integers follow JavaScript semantics (32-bit two complement
shifts and masks) using Nat and Int with explicit reductions.
-/

namespace ZipSpec

/-- Strings are modelled as lists of characters. -/
abbrev Str := List Char

/-- A raw error from a collaborator (filesystem primitive, archive
parser, stream); carries only its message, which is all the source
inspects. -/
structure RawError where
  message : Str
deriving DecidableEq, Repr

/-- Mirror of the ExtractErrorType enum in zip.ts. -/
inductive ExtractErrorType where
  | Undefined
  | CorruptZip
deriving DecidableEq, Repr

/-- Mirror of the ExtractError class: a type tag, a computed message
and the original error kept as cause. -/
structure ExtractError where
  type : ExtractErrorType
  message : Str
  cause : RawError
deriving DecidableEq, Repr

/-- The ExtractError constructor: the message starts from the cause
message and, in the CorruptZip case only, gains the prefixed text
"Corrupt ZIP: ". -/
def ExtractError.make (type : ExtractErrorType) (cause : RawError) : ExtractError :=
  let message := cause.message
  let message :=
    match type with
    | ExtractErrorType.CorruptZip => ("Corrupt ZIP: ").data ++ message
    | _ => message
  ⟨type, message, cause⟩

/-- Boolean substring test used to model the regular-expression test
in toExtractError (an unanchored pattern of literal characters matches
a string iff it occurs as a contiguous substring). -/
def hasSub (pat s : Str) : Bool :=
  (List.range (s.length + 1)).any fun i => pat.isPrefixOf (s.drop i)

/-- The message pattern tested by toExtractError. -/
def eocdMsg : Str := ("end of central directory record signature not found").data

/-- Mirror of toExtractError in zip.ts: the type starts as CorruptZip
and the classifier branch assigns CorruptZip again when the message
matches the end-of-central-directory pattern. -/
def toExtractError (err : RawError) : ExtractError :=
  let type := ExtractErrorType.CorruptZip
  let type := if hasSub eocdMsg err.message then ExtractErrorType.CorruptZip else type
  ExtractError.make type err

/-- JavaScript ToInt32: reduce modulo two to the thirty-second and
reinterpret as a signed value. -/
def toInt32 (a : Nat) : Int :=
  if a % 4294967296 < 2147483648 then ((a % 4294967296 : Nat) : Int)
  else ((a % 4294967296 : Nat) : Int) - 4294967296

/-- JavaScript signed right shift by sixteen: arithmetic shift of the
32-bit value, which is floor division of the signed value by 65536. -/
def jsShr16 (a : Nat) : Int :=
  toInt32 a / 65536

/-- JavaScript bitwise AND of a signed number with a small nonnegative
mask: both operands are taken as 32-bit patterns and the AND of the
patterns is the (nonnegative) result. -/
def jsAnd (x : Int) (m : Nat) : Nat :=
  (Int.toNat (x % 4294967296)) &&& m

/-- Mirror of modeFromEntry in zip.ts: shift the external attributes
right by sixteen, substitute 33188 when the result is zero (the JS
or-else on a falsy value), then fold the three permission masks onto
the file-type mask. -/
def modeFromEntry (externalFileAttributes : Nat) : Int :=
  let attr : Int :=
    if jsShr16 externalFileAttributes = 0 then 33188 else jsShr16 externalFileAttributes
  (([448, 56, 7] : List Nat).map fun mask => ((jsAnd attr mask : Nat) : Int)).foldl (· + ·)
    ((jsAnd attr 61440 : Nat) : Int)

/-- Spec-side description of the attribute word used by claim C4: the
high sixteen bits of the word, or the default regular-file mode 33188
when those bits are zero. -/
def hi16OrDefault (a : Nat) : Nat :=
  if a / 65536 = 0 then 33188 else a / 65536

/-- Token of the regular-expression fragment exercised by the source:
a literal character or the dot metacharacter matching any character.
The source hands user input to the platform RegExp constructor; this
development models the fragment of ECMAScript regular expressions
built from literal characters and the dot, which is exact for every
sourcePath whose characters are not metacharacters and suffices to
exhibit the behaviour on the dot. -/
inductive RTok where
  | lit (c : Char)
  | anyChar
deriving DecidableEq, Repr

/-- Whether one token matches one character. -/
def tokMatch : RTok → Char → Bool
  | RTok.lit c, d => c == d
  | RTok.anyChar, _ => true

/-- Anchored match of a token list against the front of a string. -/
def rmatchAt : List RTok → Str → Bool
  | [], _ => true
  | _ :: _, [] => false
  | t :: ts, c :: cs => tokMatch t c && rmatchAt ts cs

/-- Compile a sourcePath into pattern tokens: the dot becomes the
any-character token, every other character a literal. -/
def compilePat (sp : Str) : List RTok :=
  sp.map fun c => if c = '.' then RTok.anyChar else RTok.lit c

/-- Mirror of the regex construction in extract: an absent or empty
sourcePath yields the empty pattern (the RegExp built from the empty
string), otherwise the pattern is the sourcePath anchored at the
start. -/
def sourcePathToks : Option Str → List RTok
  | none => []
  | some p => if p = [] then [] else compilePat p

/-- Mirror of sourcePathRegex.test on an entry name. -/
def entryInScope (sp : Option Str) (name : Str) : Bool :=
  rmatchAt (sourcePathToks sp) name

/-- Replacement of the anchored pattern by the empty string: when the
pattern matches, the matched characters are removed, else the name is
unchanged. -/
def rstrip (toks : List RTok) (name : Str) : Str :=
  if rmatchAt toks name then name.drop toks.length else name

/-- Mirror of entry.fileName.replace(sourcePathRegex, empty). -/
def entryOutPath (sp : Option Str) (name : Str) : Str :=
  rstrip (sourcePathToks sp) name

/-- One archive entry record as far as the source inspects it: its
internal path and the raw external attribute word. -/
structure Entry where
  fileName : Str
  externalFileAttributes : Nat
deriving DecidableEq, Repr

deriving instance DecidableEq for Except

/-- Outcome of one asynchronous collaborator operation. -/
abbrev Outcome := Except RawError Unit

/-- A filesystem operation scheduled by the extraction driver, keyed
by the output-relative path (the target path is fixed for one
extraction). -/
inductive Op where
  | mkdirDir (dir : Str)
  | fileWrite (name : Str) (mode : Int)
deriving DecidableEq, Repr

/-- Collaborator oracle for one extraction: eventual outcomes of the
directory-creation primitive, of opening an entry read stream (keyed
by the original entry name), and of the entry extraction (parent
directory creation, sink open and pipe, keyed by output name and
mode). -/
structure Env where
  mkdirpRes : Str → Outcome
  openStreamRes : Str → Outcome
  extractEntryRes : Str → Int → Outcome

/-- Settlement of the promise inside extractZip. -/
inductive Settle where
  | completed
  | failed (e : RawError)
  | cancelled
deriving DecidableEq, Repr

/-- Events observed by the extractZip driver: archive entry and
terminal signals from the handle, plus external cancellation. -/
inductive ZEvent where
  | entry (e : Entry)
  | close
  | errored (e : RawError)
  | cancel
deriving DecidableEq, Repr

/-- State of the extractZip driver: the cancellation flag, the
eventual outcome of the promise held in the last slot, the settlement
of the driver promise, the operations scheduled directly (directory
creations) and through the throttler (file writes), both in scheduling
order, and the effects of the cancellation handler. -/
structure ZState where
  isCanceled : Bool
  lastRes : Outcome
  settled : Option Settle
  dirOps : List Op
  throttledOps : List Op
  lastWasCancelled : Bool
  zipClosed : Bool
deriving Repr

/-- Initial driver state: not cancelled, last slot holding the
already-resolved wrapped null promise, nothing scheduled. -/
def initZState : ZState :=
  { isCanceled := false
    lastRes := Except.ok ()
    settled := none
    dirOps := []
    throttledOps := []
    lastWasCancelled := false
    zipClosed := false }

/-- Whether a name ends with the slash that marks directory records. -/
def endsWithSlash (s : Str) : Bool :=
  match s.getLast? with
  | some c => c == '/'
  | none => false

/-- Eventual outcome of the task queued for a file entry: open the
read stream for the entry, then run the entry extractor on the
stripped name with the computed mode. Per the specification the
throttler hands back each task its own outcome. -/
def fileTaskRes (env : Env) (e : Entry) (outName : Str) (mode : Int) : Outcome :=
  match env.openStreamRes e.fileName with
  | Except.error er => Except.error er
  | Except.ok _ => env.extractEntryRes outName mode

/-- One step of the extractZip driver, translated from the entry,
close and error handlers and from the cancellation callback. The
entry handler returns early when cancelled or out of scope, creates
directories inline into the last slot, and routes file entries through
the throttler into the last slot. The close handler settles with the
outcome of the last slot; the error handler settles with the raw
error; both settle at most once. Cancellation after settlement is a
no-op; before settlement it sets the flag, cancels the last slot and
closes the handle. -/
def extractZipStep (env : Env) (toks : List RTok) (st : ZState) : ZEvent → ZState
  | ZEvent.entry e =>
    if st.isCanceled then st
    else if !(rmatchAt toks e.fileName) then st
    else
      let fileName := rstrip toks e.fileName
      if endsWithSlash fileName then
        { st with lastRes := env.mkdirpRes fileName
                  dirOps := st.dirOps ++ [Op.mkdirDir fileName] }
      else
        let mode := modeFromEntry e.externalFileAttributes
        { st with lastRes := fileTaskRes env e fileName mode
                  throttledOps := st.throttledOps ++ [Op.fileWrite fileName mode] }
  | ZEvent.close =>
    match st.settled with
    | some _ => st
    | none =>
      { st with settled := some (match st.lastRes with
          | Except.ok _ => Settle.completed
          | Except.error er => Settle.failed er) }
  | ZEvent.errored er =>
    match st.settled with
    | some _ => st
    | none => { st with settled := some (Settle.failed er) }
  | ZEvent.cancel =>
    match st.settled with
    | some _ => st
    | none =>
      { st with isCanceled := true
                settled := some Settle.cancelled
                lastWasCancelled := true
                zipClosed := true }

/-- Run the extractZip driver over a list of events. -/
def extractZipRun (env : Env) (toks : List RTok) (events : List ZEvent) : ZState :=
  events.foldl (extractZipStep env toks) initZState

/-- Rejection value of the promise returned by extractZip: either a
raw collaborator error or an ExtractError. -/
inductive ZipError where
  | raw (e : RawError)
  | extractErr (e : ExtractError)
deriving DecidableEq, Repr

/-- Settlement of the promise returned by extractZip. -/
inductive ZOut where
  | ok
  | errZ (z : ZipError)
  | cancelledOut
deriving DecidableEq, Repr

/-- The final error adapter of extractZip: every failure of the inner
promise is mapped through toExtractError before rejecting the returned
promise. -/
def outerOfSettle : Option Settle → Option ZOut
  | none => none
  | some Settle.completed => some ZOut.ok
  | some (Settle.failed e) => some (ZOut.errZ (ZipError.extractErr (toExtractError e)))
  | some Settle.cancelled => some ZOut.cancelledOut

/-- Settlement of the promise returned by extractZip after the given
events. -/
def extractZipOuter (env : Env) (toks : List RTok) (events : List ZEvent) : Option ZOut :=
  outerOfSettle (extractZipRun env toks events).settled

/-- ECMAScript regular-expression metacharacters (the characters whose
presence makes a sourcePath mean something other than its literal
text). -/
def regexMetaChars : Str :=
  ['.', '*', '+', '?', '(', ')', '[', ']', '\x7b', '\x7d', '|', '^', '$', '\\']

/-- Whether a character is a regular-expression metacharacter. -/
def isRegexMetaChar (c : Char) : Bool :=
  regexMetaChars.contains c

/-- Filesystem effects performed by the extract entry point, in
order: the recursive deletion of the target path, then the operations
scheduled by the extraction driver. -/
inductive FsAction where
  | rimrafTarget
  | schedOp (op : Op)
deriving DecidableEq, Repr

/-- Oracle for the extract entry point: the outcome of opening the
archive (the handle itself carries no data the model needs) and the
outcome of the recursive deletion. -/
structure XEnv where
  openZipRes : Except RawError Unit
  rimrafRes : Except RawError Unit

/-- Effects of one driver run as extract-level actions, directory
creations and throttled writes in their scheduling order kept
separate. -/
def zipActions (st : ZState) : List FsAction :=
  (st.dirOps ++ st.throttledOps).map FsAction.schedOp

/-- Mirror of the extract entry point: open the archive (parser
failures wrapped by openZip through toExtractError), then, when
overwrite is set, recursively delete the target path (its failure
rejecting unwrapped), then run the extraction driver on the archive
events. Returns the actions performed and the settlement. -/
def extractRun (xenv : XEnv) (env : Env) (overwrite : Bool) (sp : Option Str)
    (events : List ZEvent) : List FsAction × Option ZOut :=
  match xenv.openZipRes with
  | Except.error e => ([], some (ZOut.errZ (ZipError.extractErr (toExtractError e))))
  | Except.ok _ =>
    let toks := sourcePathToks sp
    if overwrite then
      match xenv.rimrafRes with
      | Except.error e => ([FsAction.rimrafTarget], some (ZOut.errZ (ZipError.raw e)))
      | Except.ok _ =>
        (FsAction.rimrafTarget :: zipActions (extractZipRun env toks events),
          extractZipOuter env toks events)
    else
      (zipActions (extractZipRun env toks events), extractZipOuter env toks events)

/-- Modelled from the spec: localization of error strings
(nls.localize) is an out-of-scope collaborator; it is modelled as
substituting the file path into the template, yielding the entry path
followed by the text " not found inside zip.". -/
def notFoundMessage (filePath : Str) : Str :=
  filePath ++ (" not found inside zip.").data

/-- Events observed by the single-entry reader: entries scanned from
the archive and the terminal close signal. -/
inductive REvent where
  | entry (e : Entry)
  | close
deriving DecidableEq, Repr

/-- State of the single-entry reader: the settlement of its promise,
an opened stream abstracted to the unit value. -/
structure RState where
  settled : Option (Except RawError Unit)
deriving DecidableEq, Repr

/-- One step of the reader from the source: an entry whose name equals
the requested path opens its read stream and settles with that result;
the close signal rejects with the localized not-found error; both
settle at most once. -/
def readStep (env : Env) (filePath : Str) (st : RState) : REvent → RState
  | REvent.entry e =>
    if e.fileName = filePath then
      match st.settled with
      | some _ => st
      | none => { settled := some (env.openStreamRes e.fileName) }
    else st
  | REvent.close =>
    match st.settled with
    | some _ => st
    | none => { settled := some (Except.error ⟨notFoundMessage filePath⟩) }

/-- Run the single-entry reader over a list of events. -/
def readRun (env : Env) (filePath : Str) (events : List REvent) : RState :=
  events.foldl (readStep env filePath) { settled := none }

/-- Events emitted by the matched entry read stream. -/
inductive SEvent where
  | dataChunk (b : List Nat)
  | endOfStream
  | streamError (e : RawError)
deriving DecidableEq, Repr

/-- State of the buffer accumulator: the chunks pushed so far and the
settlement of the buffer promise. -/
structure BState where
  buffers : List (List Nat)
  settled : Option (Except RawError (List Nat))
deriving DecidableEq, Repr

/-- One step of the buffer accumulator from the source: every data
chunk is pushed, the end signal resolves with the concatenation of the
pushed chunks, a stream error rejects with it; settlement happens at
most once. -/
def bufferStep (st : BState) : SEvent → BState
  | SEvent.dataChunk b => { st with buffers := st.buffers ++ [b] }
  | SEvent.endOfStream =>
    match st.settled with
    | some _ => st
    | none => { st with settled := some (Except.ok st.buffers.flatten) }
  | SEvent.streamError e =>
    match st.settled with
    | some _ => st
    | none => { st with settled := some (Except.error e) }

/-- Run the buffer accumulator over the stream events. -/
def bufferRun (events : List SEvent) : BState :=
  events.foldl bufferStep { buffers := [], settled := none }

/-- Settlement of the promise returned by the buffer entry point: a
read rejection propagates unchanged, a matched stream feeds the
accumulator. -/
def bufferResult (env : Env) (filePath : Str) (revents : List REvent)
    (sevents : List SEvent) : Option (Except RawError (List Nat)) :=
  match (readRun env filePath revents).settled with
  | none => none
  | some (Except.error e) => some (Except.error e)
  | some (Except.ok _) => (bufferRun sevents).settled

/-- Modelled from the spec: SimpleThrottler (vs/base/common/async) is
not under src; per the specification it keeps a FIFO of not-yet
started tasks and a running flag, starts a task immediately when idle,
appends when busy, and on completion dequeues and starts the next.
Events are task enqueues (tasks named by numbers) and completions of
the running task. -/
inductive TEvent where
  | enqueue (t : Nat)
  | completeCurrent
deriving DecidableEq, Repr

/-- State of the throttler: the queue of not-yet-started tasks, the
number of task bodies currently executing, and the histories of
enqueued and started tasks in order. -/
structure TState where
  queue : List Nat
  executing : Nat
  enqueuedAll : List Nat
  started : List Nat
deriving DecidableEq, Repr

/-- One step of the throttler model: enqueuing when idle starts the
task at once, enqueuing while busy appends to the queue; completion of
the running task starts the next queued task if any, else clears the
running flag. -/
def throttlerStep (st : TState) : TEvent → TState
  | TEvent.enqueue t =>
    if st.executing = 0 then
      { st with executing := 1
                enqueuedAll := st.enqueuedAll ++ [t]
                started := st.started ++ [t] }
    else
      { st with queue := st.queue ++ [t]
                enqueuedAll := st.enqueuedAll ++ [t] }
  | TEvent.completeCurrent =>
    if st.executing = 0 then st
    else
      match st.queue with
      | [] => { st with executing := 0 }
      | t :: ts => { st with queue := ts, started := st.started ++ [t] }

/-- Run the throttler over a list of events. -/
def throttlerRun (events : List TEvent) : TState :=
  events.foldl throttlerStep { queue := [], executing := 0, enqueuedAll := [], started := [] }

/-- Events inside one entry extraction: the parent directory creation
finishing, the write sink being opened, the sink closing after the
pipe, an error from sink or source, and cancellation. -/
inductive EEvent where
  | mkdirDone
  | sinkOpened
  | sinkClosedOk
  | pipeError (e : RawError)
  | cancelEntry
deriving DecidableEq, Repr

/-- State of one entry extraction: whether the write sink has been
assigned, whether the cancellation handler closed it, and the
settlement of the extraction promise. -/
structure EState where
  istreamOpen : Bool
  sinkClosedByCancel : Bool
  settledE : Option (Except RawError Unit)
deriving DecidableEq, Repr

/-- One step of the entry extractor from the source: opening the sink
records the assignment, the close event of the sink resolves, an error
of sink or source rejects, and the cancellation callback closes the
sink when one was assigned and never settles on its own; settlement
happens at most once and cancellation after settlement is a no-op. -/
def extractEntryStep (st : EState) : EEvent → EState
  | EEvent.mkdirDone => st
  | EEvent.sinkOpened => { st with istreamOpen := true }
  | EEvent.sinkClosedOk =>
    match st.settledE with
    | some _ => st
    | none => { st with settledE := some (Except.ok ()) }
  | EEvent.pipeError e =>
    match st.settledE with
    | some _ => st
    | none => { st with settledE := some (Except.error e) }
  | EEvent.cancelEntry =>
    match st.settledE with
    | some _ => st
    | none =>
      if st.istreamOpen then { st with sinkClosedByCancel := true } else st

/-- Run one entry extraction over a list of events. -/
def extractEntryRun (events : List EEvent) : EState :=
  events.foldl extractEntryStep { istreamOpen := false, sinkClosedByCancel := false, settledE := none }

/-- Spec-side function for claim C3: the operation scheduled for one
event, when it schedules one. -/
def scheduledOutcome (env : Env) (toks : List RTok) : ZEvent → Option Outcome
  | ZEvent.entry e =>
    if !(rmatchAt toks e.fileName) then none
    else
      let fileName := rstrip toks e.fileName
      if endsWithSlash fileName then some (env.mkdirpRes fileName)
      else some (fileTaskRes env e fileName (modeFromEntry e.externalFileAttributes))
  | _ => none

/-- Spec-side function for claim C3: the eventual outcome of the
operation held in the last slot after the given events, namely the
outcome of the last scheduled operation, or success when none was
scheduled. -/
def lastScheduledOutcome (env : Env) (toks : List RTok) (events : List ZEvent) : Outcome :=
  match (events.filterMap (scheduledOutcome env toks)).getLast? with
  | none => Except.ok ()
  | some r => r

/-- Spec-side function for claim C6: the directory operation an event
routes around the throttler, when the event is an in-scope directory
entry. -/
def dirOpOf (toks : List RTok) : ZEvent → Option Op
  | ZEvent.entry e =>
    if !(rmatchAt toks e.fileName) then none
    else
      let fileName := rstrip toks e.fileName
      if endsWithSlash fileName then some (Op.mkdirDir fileName) else none
  | _ => none

/-- Spec-side function for claim C6: the write operation an event
admits into the throttler, when the event is an in-scope file
entry. -/
def fileOpOf (toks : List RTok) : ZEvent → Option Op
  | ZEvent.entry e =>
    if !(rmatchAt toks e.fileName) then none
    else
      let fileName := rstrip toks e.fileName
      if endsWithSlash fileName then none
      else some (Op.fileWrite fileName (modeFromEntry e.externalFileAttributes))
  | _ => none

/-- Whether an event is an archive entry event. -/
def isEntryEvent : ZEvent → Bool
  | ZEvent.entry _ => true
  | _ => false

/-- Collaborator oracle in which every operation succeeds. -/
def envSimple : Env :=
  { mkdirpRes := fun _ => Except.ok ()
    openStreamRes := fun _ => Except.ok ()
    extractEntryRes := fun _ _ => Except.ok () }

/-- A permission failure from the directory-creation primitive. -/
def eaccesErr : RawError := ⟨("EACCES: permission denied").data⟩

/-- Oracle whose directory creations fail with the permission
error. -/
def envC1 : Env :=
  { mkdirpRes := fun _ => Except.error eaccesErr
    openStreamRes := fun _ => Except.ok ()
    extractEntryRes := fun _ _ => Except.ok () }

/-- Archive trace with one directory entry, then the close signal. -/
def evsC1 : List ZEvent := [ZEvent.entry ⟨("docs/").data, 0⟩, ZEvent.close]

/-- A disk-full failure from the entry extractor. -/
def enospcErr : RawError := ⟨("ENOSPC: no space left on device").data⟩

/-- Oracle whose entry extractions fail with the disk-full error. -/
def envC3 : Env :=
  { mkdirpRes := fun _ => Except.ok ()
    openStreamRes := fun _ => Except.ok ()
    extractEntryRes := fun _ _ => Except.error enospcErr }

/-- Archive trace with one file entry. -/
def evsC3pre : List ZEvent := [ZEvent.entry ⟨("a.txt").data, 0⟩]

/-- A parse failure used as a concrete archive-open outcome. -/
def badZipErr : RawError := ⟨("end of central directory record signature not found").data⟩

/-- An archive-stream failure used as a concrete error event. -/
def boomErr : RawError := ⟨("boom").data⟩

/-- Archive trace with one succeeding file entry, used by
witnesses. -/
def evsOkPre : List ZEvent := [ZEvent.entry ⟨("ok.txt").data, 0⟩]

/-- Extract-level oracle whose archive open fails. -/
def xenvBadOpen : XEnv :=
  { openZipRes := Except.error badZipErr
    rimrafRes := Except.ok () }

/-- Theorems. The helper lemmas come first, each claim theorem cites
its claim identifier. -/
theorem toExtractError_parts (e : RawError) :
    (toExtractError e).type = ExtractErrorType.CorruptZip
    ∧ (toExtractError e).message = ("Corrupt ZIP: ").data ++ e.message
    ∧ (toExtractError e).cause = e := by
  cases h : hasSub eocdMsg e.message <;>
    simp [toExtractError, ExtractError.make, h]

/-- C5: toExtractError produces a CorruptZip error for every raw
error, regardless of the message pattern, with the message of the
cause prefixed by the text Corrupt ZIP and the cause kept intact. -/
theorem C5_toExtractError_shape (e : RawError) :
    (toExtractError e).type = ExtractErrorType.CorruptZip
    ∧ (toExtractError e).message = ("Corrupt ZIP: ").data ++ e.message
    ∧ (toExtractError e).cause = e :=
  toExtractError_parts e

/-- Bitwise AND with a mask below two to the sixteenth only reads the
low sixteen bits of the other operand. -/
theorem and_mask_lo16 (x m : Nat) (hm : m < 65536) : x &&& m = (x % 65536) &&& m := by
  apply Nat.eq_of_testBit_eq
  intro i
  rw [Nat.testBit_and, Nat.testBit_and]
  by_cases hi : i < 16
  · rw [show (65536 : Nat) = 2 ^ 16 from rfl, Nat.testBit_mod_two_pow]
    simp [hi]
  · have hm2 : m < 2 ^ i := by
      calc m < 65536 := hm
      _ = 2 ^ 16 := rfl
      _ ≤ 2 ^ i := Nat.pow_le_pow_right (by norm_num) (Nat.le_of_not_lt hi)
    simp [Nat.testBit_lt_two_pow hm2]

/-- The JavaScript AND of a small nonnegative number with a mask is
the natural bitwise AND. -/
theorem jsAnd_ofNat (n m : Nat) (hn : n < 4294967296) : jsAnd (n : Int) m = n &&& m := by
  unfold jsAnd
  have hv : Int.toNat ((n : Int) % 4294967296) = n := by omega
  rw [hv]

/-- The JavaScript AND of a negative sixteen-bit-ranged value with a
small mask equals the AND of its low sixteen bits. -/
theorem jsAnd_negLow (h m : Nat) (hh : h < 65536) (hm : m < 65536) :
    jsAnd ((h : Int) - 65536) m = h &&& m := by
  unfold jsAnd
  have hv : Int.toNat (((h : Int) - 65536) % 4294967296) = h + 4294901760 := by omega
  have hmod : (h + 4294901760) % 65536 = h % 65536 := by omega
  rw [hv, and_mask_lo16 (h + 4294901760) m hm, hmod, ← and_mask_lo16 h m hm]

/-- The JavaScript shift of a value below the sign bit is the natural
division by two to the sixteenth. -/
theorem jsShr16_lo (a : Nat) (hlt : a < 2147483648) :
    jsShr16 a = ((a / 65536 : Nat) : Int) := by
  unfold jsShr16 toInt32
  rw [if_pos (by omega : a % 4294967296 < 2147483648)]
  omega

/-- The JavaScript shift of a 32-bit value with the sign bit set is
the natural division shifted down by two to the sixteenth. -/
theorem jsShr16_hi (a : Nat) (ha : a < 4294967296) (hge : 2147483648 ≤ a) :
    jsShr16 a = ((a / 65536 : Nat) : Int) - 65536 := by
  unfold jsShr16 toInt32
  rw [if_neg (by omega)]
  omega

/-- C4: for every 32-bit attribute word, modeFromEntry equals the sum
of the file-type mask 61440 and the three permission masks 448, 56 and
7 applied to the high sixteen bits of the word, with 33188 substituted
when those bits are zero. -/
theorem C4_modeFromEntry_masks (a : Nat) (ha : a < 4294967296) :
    modeFromEntry a =
      (((hi16OrDefault a &&& 61440) + (hi16OrDefault a &&& 448)
        + (hi16OrDefault a &&& 56) + (hi16OrDefault a &&& 7) : Nat) : Int) := by
  unfold modeFromEntry hi16OrDefault
  by_cases hge : 2147483648 ≤ a
  · have hne : jsShr16 a ≠ 0 := by
      rw [jsShr16_hi a ha hge]
      omega
    rw [if_neg hne, jsShr16_hi a ha hge]
    have h0 : ¬ a / 65536 = 0 := by omega
    rw [if_neg h0]
    have hh : a / 65536 < 65536 := by omega
    simp only [List.map, List.foldl]
    rw [jsAnd_negLow _ 448 hh (by norm_num), jsAnd_negLow _ 56 hh (by norm_num),
      jsAnd_negLow _ 7 hh (by norm_num), jsAnd_negLow _ 61440 hh (by norm_num)]
    push_cast
    ring
  · have hlt : a < 2147483648 := by omega
    rw [jsShr16_lo a hlt]
    by_cases h0 : a / 65536 = 0
    · have hz : ((a / 65536 : Nat) : Int) = 0 := by
        rw [h0]
        rfl
      rw [if_pos hz, if_pos h0]
      simp only [List.map, List.foldl]
      rw [show (33188 : Int) = ((33188 : Nat) : Int) by norm_num]
      rw [jsAnd_ofNat 33188 448 (by norm_num), jsAnd_ofNat 33188 56 (by norm_num),
        jsAnd_ofNat 33188 7 (by norm_num), jsAnd_ofNat 33188 61440 (by norm_num)]
      push_cast
      ring
    · have hne : ((a / 65536 : Nat) : Int) ≠ 0 := by
        exact_mod_cast h0
      rw [if_neg hne, if_neg h0]
      have hn : a / 65536 < 4294967296 := by omega
      simp only [List.map, List.foldl]
      rw [jsAnd_ofNat _ 448 hn, jsAnd_ofNat _ 56 hn, jsAnd_ofNat _ 7 hn,
        jsAnd_ofNat _ 61440 hn]
      push_cast
      ring

/-- Witness for C4 at a word with the sign bit set: mode 33261 stored
in the high bits. -/
theorem C4_modeFromEntry_masks_witness :
    modeFromEntry 2180120576 =
      (((hi16OrDefault 2180120576 &&& 61440) + (hi16OrDefault 2180120576 &&& 448)
        + (hi16OrDefault 2180120576 &&& 56) + (hi16OrDefault 2180120576 &&& 7) : Nat) : Int) :=
  C4_modeFromEntry_masks 2180120576 (by norm_num)

/-- The sourcePath pattern tokens for a present sourcePath are its
compiled pattern (the empty path compiles to the empty pattern on both
branches of the construction). -/
theorem sourcePathToks_some (sp : Str) : sourcePathToks (some sp) = compilePat sp := by
  show (if sp = [] then [] else compilePat sp) = compilePat sp
  by_cases h : sp = []
  · subst h
    simp [compilePat]
  · rw [if_neg h]

/-- A sourcePath free of metacharacters compiles to literal tokens
only. -/
theorem compilePat_no_meta (sp : Str) (h : ∀ c ∈ sp, isRegexMetaChar c = false) :
    compilePat sp = sp.map RTok.lit := by
  unfold compilePat
  apply List.map_congr_left
  intro c hc
  have hd : c ≠ '.' := by
    intro he
    subst he
    have hf := h _ hc
    simp [isRegexMetaChar, regexMetaChars] at hf
  simp [hd]

/-- An anchored pattern of literal tokens matches exactly when the
characters are a literal prefix of the string. -/
theorem rmatchAt_lits (sp name : Str) :
    rmatchAt (sp.map RTok.lit) name = sp.isPrefixOf name := by
  induction sp generalizing name with
  | nil => simp [rmatchAt, List.isPrefixOf]
  | cons c cs ih =>
    cases name with
    | nil => simp [rmatchAt, List.isPrefixOf]
    | cons d ds => simp [rmatchAt, List.isPrefixOf, tokMatch, ih]

/-- C2 amended: when the sourcePath contains no regular-expression
metacharacter, an entry is in scope exactly when the sourcePath is a
literal prefix of its name, and an in-scope entry keeps its name with
that prefix removed; an absent sourcePath puts every entry in scope
with its name unchanged. As stated over arbitrary sourcePaths the
claim fails, because the source interpolates the sourcePath into a
regular expression, so metacharacters are not matched literally. -/
theorem C2_filter_literal (sp name : Str) (h : ∀ c ∈ sp, isRegexMetaChar c = false) :
    (entryInScope (some sp) name = sp.isPrefixOf name)
    ∧ (sp.isPrefixOf name = true → entryOutPath (some sp) name = name.drop sp.length)
    ∧ entryInScope none name = true
    ∧ entryOutPath none name = name := by
  have hc : compilePat sp = sp.map RTok.lit := compilePat_no_meta sp h
  refine ⟨?_, ?_, ?_, ?_⟩
  · unfold entryInScope
    rw [sourcePathToks_some, hc, rmatchAt_lits]
  · intro hp
    unfold entryOutPath rstrip
    rw [sourcePathToks_some, hc, rmatchAt_lits, hp, if_pos rfl, List.length_map]
  · rfl
  · rfl

/-- Witness for C2 at sourcePath lib and entry name libfoo, in scope
with the prefix stripped even though libfoo is not inside a lib
directory. -/
theorem C2_filter_literal_witness :
    (entryInScope (some (['l', 'i', 'b'])) (['l', 'i', 'b', 'f', 'o', 'o', '/'])
        = (['l', 'i', 'b'] : Str).isPrefixOf ['l', 'i', 'b', 'f', 'o', 'o', '/'])
    ∧ ((['l', 'i', 'b'] : Str).isPrefixOf ['l', 'i', 'b', 'f', 'o', 'o', '/'] = true →
        entryOutPath (some (['l', 'i', 'b'])) (['l', 'i', 'b', 'f', 'o', 'o', '/'])
          = (['l', 'i', 'b', 'f', 'o', 'o', '/'] : Str).drop (['l', 'i', 'b'] : Str).length)
    ∧ entryInScope none (['l', 'i', 'b', 'f', 'o', 'o', '/']) = true
    ∧ entryOutPath none (['l', 'i', 'b', 'f', 'o', 'o', '/']) = ['l', 'i', 'b', 'f', 'o', 'o', '/'] :=
  C2_filter_literal ['l', 'i', 'b'] ['l', 'i', 'b', 'f', 'o', 'o', '/'] (by decide)

/-- C2 fails as stated: with sourcePath consisting of the dot
character, the entry named x is in scope although the dot is not a
literal prefix of x. -/
theorem C2_counterexample :
    entryInScope (some (['.'])) (['x']) = true
    ∧ (['.'] : Str).isPrefixOf ['x'] = false := by
  decide

/-- Folding the buffer accumulator over data chunks only collects them
in arrival order and settles nothing. -/
theorem bufferRun_chunks (chunks bs : List (List Nat)) :
    (chunks.map SEvent.dataChunk).foldl bufferStep { buffers := bs, settled := none }
      = { buffers := bs ++ chunks, settled := none } := by
  induction chunks generalizing bs with
  | nil => simp
  | cons c cs ih =>
    simp only [List.map, List.foldl]
    rw [show bufferStep { buffers := bs, settled := none } (SEvent.dataChunk c)
        = { buffers := bs ++ [c], settled := none } from rfl, ih]
    simp

/-- C9: a finite sequence of chunks followed by the end signal
resolves the buffer promise with the concatenation of the chunks in
arrival order, and a stream error arriving instead of the end signal
rejects it with that error. -/
theorem C9_buffer_concat (chunks : List (List Nat)) (e : RawError) :
    (bufferRun (chunks.map SEvent.dataChunk ++ [SEvent.endOfStream])).settled
      = some (Except.ok chunks.flatten)
    ∧ (bufferRun (chunks.map SEvent.dataChunk ++ [SEvent.streamError e])).settled
      = some (Except.error e) := by
  unfold bufferRun
  constructor
  · rw [List.foldl_append, bufferRun_chunks chunks []]
    simp [bufferStep]
  · rw [List.foldl_append, bufferRun_chunks chunks []]
    simp [bufferStep]

/-- Scanning entries that never match the requested path leaves the
single-entry reader unsettled. -/
theorem readRun_no_match (env : Env) (fp : Str) (entries : List Entry)
    (h : ∀ e ∈ entries, e.fileName ≠ fp) :
    (entries.map REvent.entry).foldl (readStep env fp) { settled := none }
      = ({ settled := none } : RState) := by
  induction entries with
  | nil => rfl
  | cons e es ih =>
    have hne : e.fileName ≠ fp := h e (by simp)
    simp only [List.map, List.foldl]
    rw [show readStep env fp { settled := none } (REvent.entry e)
        = ({ settled := none } : RState) by simp [readStep, hne]]
    exact ih fun x hx => h x (by simp [hx])

/-- C8: when the archive closes without any entry having matched the
requested path exactly, the single-entry read rejects with the
not-found error naming that path, and the buffer layered on it rejects
with the same error. -/
theorem C8_read_not_found (env : Env) (fp : Str) (entries : List Entry)
    (h : ∀ e ∈ entries, e.fileName ≠ fp) :
    (readRun env fp (entries.map REvent.entry ++ [REvent.close])).settled
        = some (Except.error ⟨notFoundMessage fp⟩)
    ∧ notFoundMessage fp = fp ++ (" not found inside zip.").data
    ∧ bufferResult env fp (entries.map REvent.entry ++ [REvent.close]) []
        = some (Except.error ⟨notFoundMessage fp⟩) := by
  have hr : readRun env fp (entries.map REvent.entry ++ [REvent.close])
      = ({ settled := some (Except.error ⟨notFoundMessage fp⟩) } : RState) := by
    unfold readRun
    rw [List.foldl_append, readRun_no_match env fp entries h]
    rfl
  refine ⟨by rw [hr], rfl, ?_⟩
  unfold bufferResult
  rw [hr]

/-- Witness for C8: an archive holding only a.txt, requested entry
missing.txt. -/
theorem C8_read_not_found_witness :
    (readRun envSimple (("missing.txt").data)
        ([Entry.mk (("a.txt").data) 0].map REvent.entry ++ [REvent.close])).settled
        = some (Except.error ⟨notFoundMessage (("missing.txt").data)⟩)
    ∧ notFoundMessage (("missing.txt").data)
        = ("missing.txt").data ++ (" not found inside zip.").data
    ∧ bufferResult envSimple (("missing.txt").data)
        ([Entry.mk (("a.txt").data) 0].map REvent.entry ++ [REvent.close]) []
        = some (Except.error ⟨notFoundMessage (("missing.txt").data)⟩) :=
  C8_read_not_found envSimple (("missing.txt").data) [Entry.mk (("a.txt").data) 0] (by decide)

/-- C10: when opening the archive fails, extract rejects with the
wrapped parse error and performs no filesystem action at all; in
particular the recursive deletion of the target path never happens
without a successful archive open. -/
theorem C10_open_failure_no_delete (xenv : XEnv) (env : Env) (ow : Bool) (sp : Option Str)
    (events : List ZEvent) (e : RawError) (hx : xenv.openZipRes = Except.error e) :
    extractRun xenv env ow sp events
        = ([], some (ZOut.errZ (ZipError.extractErr (toExtractError e))))
    ∧ FsAction.rimrafTarget ∉ (extractRun xenv env ow sp events).1 := by
  have he : extractRun xenv env ow sp events
      = ([], some (ZOut.errZ (ZipError.extractErr (toExtractError e)))) := by
    unfold extractRun
    rw [hx]
  refine ⟨he, ?_⟩
  rw [he]
  simp

/-- Witness for C10: a corrupt archive under overwrite mode. -/
theorem C10_open_failure_no_delete_witness :
    extractRun xenvBadOpen envSimple true none evsC1
        = ([], some (ZOut.errZ (ZipError.extractErr (toExtractError badZipErr))))
    ∧ FsAction.rimrafTarget ∉ (extractRun xenvBadOpen envSimple true none evsC1).1 :=
  C10_open_failure_no_delete xenvBadOpen envSimple true none evsC1 badZipErr rfl

/-- The last element of a cons, with a default, ignores the default
and falls back to the head. -/
theorem getLastD_cons {α : Type} (l : List α) :
    ∀ x d : α, ((x :: l).getLast?).getD d = (l.getLast?).getD x := by
  induction l with
  | nil => intro x d; rfl
  | cons y ys ih =>
    intro x d
    rw [List.getLast?_cons_cons, ih y d, ih y x]

/-- The last scheduled outcome is the last of the per-event outcomes,
falling back to success. -/
theorem lastScheduledOutcome_eq (env : Env) (toks : List RTok) (events : List ZEvent) :
    lastScheduledOutcome env toks events
      = ((events.filterMap (scheduledOutcome env toks)).getLast?).getD (Except.ok ()) := by
  unfold lastScheduledOutcome
  cases (events.filterMap (scheduledOutcome env toks)).getLast? <;> rfl

/-- Invariant of the driver fold over entry events: the cancellation
flag stays clear, the promise stays unsettled, the last slot holds the
outcome of the last scheduled operation, and the two scheduling lists
grow by exactly the in-scope file and directory operations in arrival
order. -/
theorem foldl_entries_inv (env : Env) (toks : List RTok) (events : List ZEvent)
    (h : ∀ ev ∈ events, isEntryEvent ev = true) :
    ∀ st : ZState, st.isCanceled = false → st.settled = none →
      ((events.foldl (extractZipStep env toks) st).isCanceled = false
      ∧ (events.foldl (extractZipStep env toks) st).settled = none
      ∧ (events.foldl (extractZipStep env toks) st).lastRes
          = ((events.filterMap (scheduledOutcome env toks)).getLast?).getD st.lastRes
      ∧ (events.foldl (extractZipStep env toks) st).throttledOps
          = st.throttledOps ++ events.filterMap (fileOpOf toks)
      ∧ (events.foldl (extractZipStep env toks) st).dirOps
          = st.dirOps ++ events.filterMap (dirOpOf toks)) := by
  induction events with
  | nil =>
    intro st h1 h2
    refine ⟨h1, h2, by simp, by simp, by simp⟩
  | cons ev evs ih =>
    intro st h1 h2
    have hev : isEntryEvent ev = true := h ev (by simp)
    have hrest : ∀ x ∈ evs, isEntryEvent x = true := fun x hx => h x (by simp [hx])
    cases ev with
    | close => simp [isEntryEvent] at hev
    | errored er => simp [isEntryEvent] at hev
    | cancel => simp [isEntryEvent] at hev
    | entry e =>
      by_cases hscope : rmatchAt toks e.fileName = true
      · by_cases hdir : endsWithSlash (rstrip toks e.fileName) = true
        · have hstep : extractZipStep env toks st (ZEvent.entry e)
              = { st with lastRes := env.mkdirpRes (rstrip toks e.fileName)
                          dirOps := st.dirOps ++ [Op.mkdirDir (rstrip toks e.fileName)] } := by
            simp [extractZipStep, h1, hscope, hdir]
          have hso : scheduledOutcome env toks (ZEvent.entry e)
              = some (env.mkdirpRes (rstrip toks e.fileName)) := by
            simp [scheduledOutcome, hscope, hdir]
          have hdo : dirOpOf toks (ZEvent.entry e)
              = some (Op.mkdirDir (rstrip toks e.fileName)) := by
            simp [dirOpOf, hscope, hdir]
          have hfo : fileOpOf toks (ZEvent.entry e) = none := by
            simp [fileOpOf, hscope, hdir]
          have hmain := ih hrest (extractZipStep env toks st (ZEvent.entry e))
            (by rw [hstep]; exact h1) (by rw [hstep]; exact h2)
          rw [List.foldl_cons]
          refine ⟨hmain.1, hmain.2.1, ?_, ?_, ?_⟩
          · rw [hmain.2.2.1, List.filterMap_cons_some hso, getLastD_cons, hstep]
          · rw [hmain.2.2.2.1, List.filterMap_cons_none hfo, hstep]
          · rw [hmain.2.2.2.2, List.filterMap_cons_some hdo, hstep]
            simp
        · have hstep : extractZipStep env toks st (ZEvent.entry e)
              = { st with
                    lastRes := fileTaskRes env e (rstrip toks e.fileName)
                      (modeFromEntry e.externalFileAttributes)
                    throttledOps := st.throttledOps
                      ++ [Op.fileWrite (rstrip toks e.fileName)
                            (modeFromEntry e.externalFileAttributes)] } := by
            simp [extractZipStep, h1, hscope, hdir]
          have hso : scheduledOutcome env toks (ZEvent.entry e)
              = some (fileTaskRes env e (rstrip toks e.fileName)
                  (modeFromEntry e.externalFileAttributes)) := by
            simp [scheduledOutcome, hscope, hdir]
          have hdo : dirOpOf toks (ZEvent.entry e) = none := by
            simp [dirOpOf, hscope, hdir]
          have hfo : fileOpOf toks (ZEvent.entry e)
              = some (Op.fileWrite (rstrip toks e.fileName)
                  (modeFromEntry e.externalFileAttributes)) := by
            simp [fileOpOf, hscope, hdir]
          have hmain := ih hrest (extractZipStep env toks st (ZEvent.entry e))
            (by rw [hstep]; exact h1) (by rw [hstep]; exact h2)
          rw [List.foldl_cons]
          refine ⟨hmain.1, hmain.2.1, ?_, ?_, ?_⟩
          · rw [hmain.2.2.1, List.filterMap_cons_some hso, getLastD_cons, hstep]
          · rw [hmain.2.2.2.1, List.filterMap_cons_some hfo, hstep]
            simp
          · rw [hmain.2.2.2.2, List.filterMap_cons_none hdo, hstep]
      · have hstep : extractZipStep env toks st (ZEvent.entry e) = st := by
          simp [extractZipStep, h1, hscope]
        have hso : scheduledOutcome env toks (ZEvent.entry e) = none := by
          simp [scheduledOutcome, hscope]
        have hdo : dirOpOf toks (ZEvent.entry e) = none := by
          simp [dirOpOf, hscope]
        have hfo : fileOpOf toks (ZEvent.entry e) = none := by
          simp [fileOpOf, hscope]
        have hmain := ih hrest (extractZipStep env toks st (ZEvent.entry e))
          (by rw [hstep]; exact h1) (by rw [hstep]; exact h2)
        rw [List.foldl_cons]
        refine ⟨hmain.1, hmain.2.1, ?_, ?_, ?_⟩
        · rw [hmain.2.2.1, List.filterMap_cons_none hso, hstep]
        · rw [hmain.2.2.2.1, List.filterMap_cons_none hfo, hstep]
        · rw [hmain.2.2.2.2, List.filterMap_cons_none hdo, hstep]

/-- After cancellation the driver ignores every further entry
event. -/
theorem foldl_entries_cancelled (env : Env) (toks : List RTok) (events : List ZEvent)
    (h : ∀ ev ∈ events, isEntryEvent ev = true) :
    ∀ st : ZState, st.isCanceled = true →
      events.foldl (extractZipStep env toks) st = st := by
  induction events with
  | nil => intro st _; rfl
  | cons ev evs ih =>
    intro st hc
    have hev : isEntryEvent ev = true := h ev (by simp)
    have hrest : ∀ x ∈ evs, isEntryEvent x = true := fun x hx => h x (by simp [hx])
    cases ev with
    | close => simp [isEntryEvent] at hev
    | errored er => simp [isEntryEvent] at hev
    | cancel => simp [isEntryEvent] at hev
    | entry e =>
      have hstep : extractZipStep env toks st (ZEvent.entry e) = st := by
        simp [extractZipStep, hc]
      rw [List.foldl_cons, hstep]
      exact ih hrest st hc

/-- Invariant of the throttler model: at most one task body executes
at any time, an idle throttler has an empty queue, and the started
tasks followed by the queued tasks are exactly the enqueued tasks in
order. -/
theorem throttler_inv (events : List TEvent) :
    ∀ st : TState, st.executing ≤ 1 → (st.executing = 0 → st.queue = []) →
      st.started ++ st.queue = st.enqueuedAll →
      ((events.foldl throttlerStep st).executing ≤ 1
      ∧ ((events.foldl throttlerStep st).executing = 0 → (events.foldl throttlerStep st).queue = [])
      ∧ (events.foldl throttlerStep st).started ++ (events.foldl throttlerStep st).queue
          = (events.foldl throttlerStep st).enqueuedAll) := by
  induction events with
  | nil => exact fun st h1 h2 h3 => ⟨h1, h2, h3⟩
  | cons ev evs ih =>
    intro st h1 h2 h3
    rw [List.foldl_cons]
    cases ev with
    | enqueue t =>
      by_cases he : st.executing = 0
      · have hq : st.queue = [] := h2 he
        have hstep : throttlerStep st (TEvent.enqueue t)
            = { st with executing := 1
                        enqueuedAll := st.enqueuedAll ++ [t]
                        started := st.started ++ [t] } := by
          simp [throttlerStep, he]
        rw [hstep]
        apply ih
        · exact Nat.le_refl 1
        · intro hzero
          cases hzero
        · show (st.started ++ [t]) ++ st.queue = st.enqueuedAll ++ [t]
          rw [hq, List.append_nil, ← h3, hq, List.append_nil]
      · have hstep : throttlerStep st (TEvent.enqueue t)
            = { st with queue := st.queue ++ [t]
                        enqueuedAll := st.enqueuedAll ++ [t] } := by
          simp [throttlerStep, he]
        rw [hstep]
        apply ih
        · exact h1
        · intro hzero
          exact absurd hzero he
        · show st.started ++ (st.queue ++ [t]) = st.enqueuedAll ++ [t]
          rw [← List.append_assoc, h3]
    | completeCurrent =>
      by_cases he : st.executing = 0
      · have hstep : throttlerStep st TEvent.completeCurrent = st := by
          simp [throttlerStep, he]
        rw [hstep]
        exact ih st h1 h2 h3
      · cases hq : st.queue with
        | nil =>
          have hstep : throttlerStep st TEvent.completeCurrent = { st with executing := 0 } := by
            simp [throttlerStep, he, hq]
          rw [hstep]
          apply ih
          · exact Nat.zero_le 1
          · intro _
            exact hq
          · exact h3
        | cons t ts =>
          have hstep : throttlerStep st TEvent.completeCurrent
              = { st with queue := ts, started := st.started ++ [t] } := by
            simp [throttlerStep, he, hq]
          rw [hstep]
          apply ih
          · exact h1
          · intro hzero
            exact absurd hzero he
          · show (st.started ++ [t]) ++ ts = st.enqueuedAll
            rw [List.append_assoc, List.singleton_append, ← hq]
            exact h3

/-- C6: the throttler executes at most one file-write task body at a
time and starts tasks in enqueue order (started tasks are always a
prefix of the enqueued order, the queue holding the rest); the driver
admits into the throttler exactly the in-scope file entries in arrival
order, while directory creations bypass it and never appear among the
throttled operations. -/
theorem C6_serial_fifo (tevents : List TEvent) (env : Env) (toks : List RTok)
    (events : List ZEvent) (h : ∀ ev ∈ events, isEntryEvent ev = true) :
    (throttlerRun tevents).executing ≤ 1
    ∧ (throttlerRun tevents).started ++ (throttlerRun tevents).queue
        = (throttlerRun tevents).enqueuedAll
    ∧ (extractZipRun env toks events).throttledOps = events.filterMap (fileOpOf toks)
    ∧ (extractZipRun env toks events).dirOps = events.filterMap (dirOpOf toks) := by
  have ht := throttler_inv tevents
    { queue := [], executing := 0, enqueuedAll := [], started := [] }
    (by norm_num) (fun _ => rfl) rfl
  have hz := foldl_entries_inv env toks events h initZState rfl rfl
  refine ⟨ht.1, ht.2.2, ?_, ?_⟩
  · rw [show extractZipRun env toks events = events.foldl (extractZipStep env toks) initZState
      from rfl, hz.2.2.2.1]
    rfl
  · rw [show extractZipRun env toks events = events.foldl (extractZipStep env toks) initZState
      from rfl, hz.2.2.2.2]
    rfl

/-- Witness for C6: two file entries and one directory entry, the
throttler seeing two enqueues and one completion. -/
theorem C6_serial_fifo_witness :
    (throttlerRun [TEvent.enqueue 0, TEvent.enqueue 1, TEvent.completeCurrent]).executing ≤ 1
    ∧ (throttlerRun [TEvent.enqueue 0, TEvent.enqueue 1, TEvent.completeCurrent]).started
        ++ (throttlerRun [TEvent.enqueue 0, TEvent.enqueue 1, TEvent.completeCurrent]).queue
        = (throttlerRun [TEvent.enqueue 0, TEvent.enqueue 1, TEvent.completeCurrent]).enqueuedAll
    ∧ (extractZipRun envSimple []
        [ZEvent.entry ⟨("a.txt").data, 0⟩, ZEvent.entry ⟨("docs/").data, 0⟩]).throttledOps
        = List.filterMap (fileOpOf [])
            [ZEvent.entry ⟨("a.txt").data, 0⟩, ZEvent.entry ⟨("docs/").data, 0⟩]
    ∧ (extractZipRun envSimple []
        [ZEvent.entry ⟨("a.txt").data, 0⟩, ZEvent.entry ⟨("docs/").data, 0⟩]).dirOps
        = List.filterMap (dirOpOf [])
            [ZEvent.entry ⟨("a.txt").data, 0⟩, ZEvent.entry ⟨("docs/").data, 0⟩] :=
  C6_serial_fifo [TEvent.enqueue 0, TEvent.enqueue 1, TEvent.completeCurrent] envSimple []
    [ZEvent.entry ⟨("a.txt").data, 0⟩, ZEvent.entry ⟨("docs/").data, 0⟩] (by decide)

/-- C3 amended: when the close signal arrives after the entry events,
the driver promise settles with exactly the outcome of the operation
held in the last-pending-operation slot at that moment, completed on
its success and failed with its error on its failure; the promise
extractZip returns then resolves on success, while on failure it
rejects with the ExtractError wrapping that operation's error as its
cause (not with the raw operation error itself). -/
theorem C3_close_settles_with_last (env : Env) (toks : List RTok) (pre : List ZEvent)
    (h : ∀ ev ∈ pre, isEntryEvent ev = true) :
    (extractZipRun env toks (pre ++ [ZEvent.close])).settled
      = some (match lastScheduledOutcome env toks pre with
          | Except.ok _ => Settle.completed
          | Except.error e => Settle.failed e)
    ∧ extractZipOuter env toks (pre ++ [ZEvent.close])
      = some (match lastScheduledOutcome env toks pre with
          | Except.ok _ => ZOut.ok
          | Except.error e => ZOut.errZ (ZipError.extractErr (toExtractError e))) := by
  have hz := foldl_entries_inv env toks pre h initZState rfl rfl
  have hrun : extractZipRun env toks (pre ++ [ZEvent.close])
      = extractZipStep env toks (pre.foldl (extractZipStep env toks) initZState) ZEvent.close := by
    unfold extractZipRun
    rw [List.foldl_append]
    rfl
  have hlast : (pre.foldl (extractZipStep env toks) initZState).lastRes
      = lastScheduledOutcome env toks pre := by
    rw [hz.2.2.1, lastScheduledOutcome_eq]
    rfl
  have hsettle : (extractZipRun env toks (pre ++ [ZEvent.close])).settled
      = some (match lastScheduledOutcome env toks pre with
          | Except.ok _ => Settle.completed
          | Except.error e => Settle.failed e) := by
    rw [hrun]
    have hs := hz.2.1
    simp only [extractZipStep, hs]
    rw [hlast]
  refine ⟨hsettle, ?_⟩
  unfold extractZipOuter
  rw [hsettle]
  cases hl : lastScheduledOutcome env toks pre with
  | ok u => cases u; rfl
  | error e => rfl

/-- Witness for C3 at a succeeding file entry: the driver completes
and the returned promise resolves. -/
theorem C3_close_settles_with_last_witness :
    (extractZipRun envSimple [] (evsOkPre ++ [ZEvent.close])).settled = some Settle.completed
    ∧ extractZipOuter envSimple [] (evsOkPre ++ [ZEvent.close]) = some ZOut.ok :=
  C3_close_settles_with_last envSimple [] evsOkPre (by decide)

/-- C3 fails as stated on the failure side: a failing file write makes
the returned promise reject with the ExtractError produced from the
write error, which differs from the raw write error it wraps. -/
theorem C3_counterexample :
    extractZipOuter envC3 [] (evsC3pre ++ [ZEvent.close])
        = some (ZOut.errZ (ZipError.extractErr (toExtractError enospcErr)))
    ∧ extractZipOuter envC3 [] (evsC3pre ++ [ZEvent.close])
        ≠ some (ZOut.errZ (ZipError.raw enospcErr))
    ∧ (toExtractError enospcErr).message ≠ enospcErr.message := by
  refine ⟨by decide, by decide, by decide⟩

/-- C1 amended: every rejection of the promise returned by extractZip,
whether caused by an archive signal or by a scheduled filesystem
operation, is the ExtractError produced by toExtractError from the raw
error: CorruptZip type, prefixed message, original error kept as
cause; no rejection carries the raw error unwrapped. -/
theorem C1_rejections_wrapped (env : Env) (toks : List RTok) (events : List ZEvent)
    (z : ZipError) (h : extractZipOuter env toks events = some (ZOut.errZ z)) :
    ∃ raw, z = ZipError.extractErr (toExtractError raw)
      ∧ (toExtractError raw).type = ExtractErrorType.CorruptZip
      ∧ (toExtractError raw).message = ("Corrupt ZIP: ").data ++ raw.message
      ∧ (toExtractError raw).cause = raw := by
  unfold extractZipOuter outerOfSettle at h
  cases hs : (extractZipRun env toks events).settled with
  | none =>
    rw [hs] at h
    cases h
  | some s =>
    rw [hs] at h
    cases s with
    | completed => simp at h
    | cancelled => simp at h
    | failed e2 =>
      have hz : z = ZipError.extractErr (toExtractError e2) := by
        have hinj := Option.some.inj h
        injection hinj with h2
        exact h2.symm
      exact ⟨e2, hz, (toExtractError_parts e2).1, (toExtractError_parts e2).2.1,
        (toExtractError_parts e2).2.2⟩

/-- Witness for C1 at an archive-stream error event. -/
theorem C1_rejections_wrapped_witness :
    ∃ raw, ZipError.extractErr (toExtractError boomErr) = ZipError.extractErr (toExtractError raw)
      ∧ (toExtractError raw).type = ExtractErrorType.CorruptZip
      ∧ (toExtractError raw).message = ("Corrupt ZIP: ").data ++ raw.message
      ∧ (toExtractError raw).cause = raw :=
  C1_rejections_wrapped envSimple [] [ZEvent.errored boomErr]
    (ZipError.extractErr (toExtractError boomErr)) (by decide)

/-- C1 fails as stated: a failing directory creation rejects the
extractZip promise with the ExtractError wrapping the filesystem
error, not with the raw filesystem error unwrapped. -/
theorem C1_counterexample :
    extractZipOuter envC1 [] evsC1
        = some (ZOut.errZ (ZipError.extractErr (toExtractError eaccesErr)))
    ∧ extractZipOuter envC1 [] evsC1 ≠ some (ZOut.errZ (ZipError.raw eaccesErr)) := by
  refine ⟨by decide, by decide⟩

/-- C7: cancellation before settlement sets the terminal flag, cancels
the operation in the last-pending-operation slot and closes the
archive handle; every entry event arriving after the cancellation
leaves the driver state untouched, so no directory creation, stream
open or throttled extraction is scheduled; and inside the entry
extractor a cancellation before completion closes the write sink it
had opened. -/
theorem C7_cancellation (env : Env) (toks : List RTok) (pre post : List ZEvent)
    (hpre : (extractZipRun env toks pre).settled = none)
    (hpost : ∀ ev ∈ post, isEntryEvent ev = true)
    (eevents : List EEvent)
    (hopen : (extractEntryRun eevents).istreamOpen = true)
    (hnotdone : (extractEntryRun eevents).settledE = none) :
    (extractZipRun env toks (pre ++ [ZEvent.cancel])).isCanceled = true
    ∧ (extractZipRun env toks (pre ++ [ZEvent.cancel])).lastWasCancelled = true
    ∧ (extractZipRun env toks (pre ++ [ZEvent.cancel])).zipClosed = true
    ∧ extractZipRun env toks (pre ++ [ZEvent.cancel] ++ post)
        = extractZipRun env toks (pre ++ [ZEvent.cancel])
    ∧ (extractEntryRun (eevents ++ [EEvent.cancelEntry])).sinkClosedByCancel = true := by
  have hstep : extractZipRun env toks (pre ++ [ZEvent.cancel])
      = { pre.foldl (extractZipStep env toks) initZState with
            isCanceled := true
            settled := some Settle.cancelled
            lastWasCancelled := true
            zipClosed := true } := by
    unfold extractZipRun
    rw [List.foldl_append]
    show extractZipStep env toks (pre.foldl (extractZipStep env toks) initZState) ZEvent.cancel = _
    have hs : (pre.foldl (extractZipStep env toks) initZState).settled = none := hpre
    simp only [extractZipStep, hs]
  have hcanc : (extractZipRun env toks (pre ++ [ZEvent.cancel])).isCanceled = true := by
    rw [hstep]
  have hpost2 : extractZipRun env toks (pre ++ [ZEvent.cancel] ++ post)
      = extractZipRun env toks (pre ++ [ZEvent.cancel]) := by
    show (pre ++ [ZEvent.cancel] ++ post).foldl (extractZipStep env toks) initZState
      = extractZipRun env toks (pre ++ [ZEvent.cancel])
    rw [List.foldl_append]
    exact foldl_entries_cancelled env toks post hpost _ hcanc
  have hsink : (extractEntryRun (eevents ++ [EEvent.cancelEntry])).sinkClosedByCancel = true := by
    unfold extractEntryRun
    rw [List.foldl_append]
    show (extractEntryStep (extractEntryRun eevents) EEvent.cancelEntry).sinkClosedByCancel = true
    simp only [extractEntryStep, hnotdone, hopen]
    rfl
  exact ⟨hcanc, by rw [hstep], by rw [hstep], hpost2, hsink⟩

/-- Witness for C7: cancellation after one processed entry, one entry
arriving late, the sink already open inside the extractor. -/
theorem C7_cancellation_witness :
    (extractZipRun envSimple [] (evsOkPre ++ [ZEvent.cancel])).isCanceled = true
    ∧ (extractZipRun envSimple [] (evsOkPre ++ [ZEvent.cancel])).lastWasCancelled = true
    ∧ (extractZipRun envSimple [] (evsOkPre ++ [ZEvent.cancel])).zipClosed = true
    ∧ extractZipRun envSimple [] (evsOkPre ++ [ZEvent.cancel] ++ [ZEvent.entry ⟨("b.txt").data, 0⟩])
        = extractZipRun envSimple [] (evsOkPre ++ [ZEvent.cancel])
    ∧ (extractEntryRun ([EEvent.sinkOpened] ++ [EEvent.cancelEntry])).sinkClosedByCancel = true :=
  C7_cancellation envSimple [] evsOkPre [ZEvent.entry ⟨("b.txt").data, 0⟩]
    (by decide) (by decide) [EEvent.sinkOpened] (by decide) (by decide)

end ZipSpec
